import Mathlib

/-!
Verification of the tool-manager dispatch core of
`src/include/tool/tool_manager.h` (KiCad's `TOOL_MANAGER`).

The repository ships only the interface header; the bodies of
`RegisterTool`, `FindTool`, `InvokeTool`, `ResetTool`, `ProcessEvent`,
`dispatchInternal`, `finishTool`, `ScheduleNextState`, `ScheduleWait` and
`MakeToolId` live in a source file that is not part of the repository
snapshot.  Those operations are therefore modelled from the specification;
the inline body of `PassEvent` is present in the header and is embedded
directly from the source.
-/

/-- Tool identifier: an integer derived from the tool's name
(`typedef int TOOL_ID` in the real headers). -/
abbrev TOOL_ID : Type := Nat

/-- Modelled from the spec: an Event carries a category/action tag and an
opaque payload; matching is categorical, so the payload is omitted.
(`TOOL_EVENT` is declared in `tool/tool_event.h`, absent from the
snapshot.) -/
structure TOOL_EVENT where
  category : Nat
  action   : Nat
deriving DecidableEq, Repr

/-- Modelled from the spec: one event-match predicate, a pair of acceptable
(category, action) tags where either component may be a wildcard. -/
structure EVENT_COND where
  category : Option Nat
  action   : Option Nat
deriving DecidableEq, Repr

/-- Modelled from the spec: does a single condition accept an event
(component-wise tag match, `none` is the wildcard)? -/
def condAccepts (c : EVENT_COND) (e : TOOL_EVENT) : Bool :=
  (match c.category with
   | none => true
   | some k => k == e.category)
  &&
  (match c.action with
   | none => true
   | some a => a == e.action)

/-- Modelled from the spec: a condition-set (`TOOL_EVENT_LIST`, declared in
`tool/tool_event.h`): a set of event-match predicates, order-irrelevant
("any of these event shapes"). -/
abbrev TOOL_EVENT_LIST : Type := List EVENT_COND

/-- Modelled from the spec: a condition-set matches an event when any of its
predicates accepts it (`TOOL_EVENT_LIST::Matches`). -/
def listMatches (cs : TOOL_EVENT_LIST) (e : TOOL_EVENT) : Bool :=
  cs.any (fun c => condAccepts c e)

/-- Modelled from the spec: a handler body (`TOOL_STATE_FUNC`), reduced to
its observable interactions with the manager.  Between suspension points a
handler runs to completion without preemption; the only manager-visible
actions are `ScheduleNextState`, `PassEvent` and `ScheduleWait`.
`wait` parks the handler: `k` is the continuation resumed when a matching
event arrives. -/
inductive HPROG where
  /-- handler returns: the synchronous portion ran to completion. -/
  | done : HPROG
  /-- handler calls `ScheduleNextState(tool, handler, conditions)` and
  continues with `next`. -/
  | scheduleNext (conds : TOOL_EVENT_LIST) (handler : HPROG) (next : HPROG) : HPROG
  /-- handler calls `PassEvent()` and continues with `next`. -/
  | pass (next : HPROG) : HPROG
  /-- handler calls `ScheduleWait(tool, conds)` and parks; `k` continues
  after a satisfied wait. -/
  | wait (conds : TOOL_EVENT_LIST) (k : HPROG) : HPROG
deriving DecidableEq, Repr

/-- `typedef std::pair<TOOL_EVENT_LIST, TOOL_STATE_FUNC> TRANSITION`
(from the header). -/
abbrev TRANSITION : Type := TOOL_EVENT_LIST × HPROG

/-- Modelled from the spec: per-tool runtime state (`struct TOOL_STATE`,
private in the header, defined in the missing implementation file):
the current pending transitions and, optionally, a suspended wait
(the condition-set it is blocked on plus the parked continuation). -/
structure TOOL_STATE where
  transitions : List TRANSITION
  pendingWait : Option (TOOL_EVENT_LIST × HPROG)
deriving DecidableEq, Repr

/-- Modelled from the spec: a tool (`TOOL_BASE`, declared in
`tool/tool_base.h`, absent from the snapshot) is identified by its name;
its `Reset()` entry point re-initializes it, declaring the tool's initial
transition table. -/
structure TOOL_BASE where
  name : String
  resetTransitions : List TRANSITION
deriving DecidableEq, Repr

/-- The manager state, following the private section of the header:
`m_toolState` / `m_toolIdIndex` collapse to one id-keyed association list
(ids are unique), `m_activeTools` is the Activation Stack (front = top),
`m_passEvent` the pass-through flag.  `resumeLog` records every resumption
of a suspended wait together with the value the wait yielded
(`some e` = satisfied by event `e`, `none` = cancelled), making the
resume-once contract observable. -/
structure TOOL_MANAGER where
  tools        : List (TOOL_ID × TOOL_BASE)
  toolStates   : List (TOOL_ID × TOOL_STATE)
  m_activeTools : List TOOL_ID
  m_passEvent  : Bool
  resumeLog    : List (TOOL_ID × Option TOOL_EVENT)
deriving DecidableEq, Repr

/-- The freshly constructed manager (`TOOL_MANAGER()`): no tools, empty
Activation Stack. -/
def emptyManager : TOOL_MANAGER :=
  { tools := [], toolStates := [], m_activeTools := [],
    m_passEvent := false, resumeLog := [] }

/-- Modelled from the spec: `MakeToolId` generates a unique ID for a tool
with the given name as a pure deterministic stable hash of the name
(implementation absent from the snapshot). -/
def MakeToolId (aToolName : String) : TOOL_ID :=
  aToolName.data.foldl (fun h c => (h * 31 + c.toNat) % 4294967296) 5381

/-- Look up a tool's runtime state by id. -/
def lookupState (m : TOOL_MANAGER) (id : TOOL_ID) : Option TOOL_STATE :=
  (m.toolStates.find? (fun p => p.1 == id)).map (·.2)

/-- Replace a tool's runtime state by id. -/
def setState (m : TOOL_MANAGER) (id : TOOL_ID) (st : TOOL_STATE) : TOOL_MANAGER :=
  { m with toolStates :=
      m.toolStates.map (fun p => if p.1 = id then (id, st) else p) }

/-- Modelled from the spec: `RegisterTool` computes the ToolId from the
tool's name, fails (fatal configuration error, `none`) on duplicate id or
duplicate name, creates the runtime state, calls `tool.Reset()` (declaring
the tool's initial transitions) and stores the tool in the indexes. -/
def RegisterTool (m : TOOL_MANAGER) (aTool : TOOL_BASE) : Option TOOL_MANAGER :=
  let id := MakeToolId aTool.name
  if m.tools.any (fun p => p.1 == id || p.2.name == aTool.name) then
    none
  else
    some { m with
      tools := m.tools ++ [(id, aTool)],
      toolStates := m.toolStates ++
        [(id, { transitions := aTool.resetTransitions, pendingWait := none })] }

/-- Modelled from the spec: `FindTool(int aId)` searches for a tool with the
given id, returning a not-found sentinel (`none`) on a miss. -/
def FindToolById (m : TOOL_MANAGER) (aId : TOOL_ID) : Option TOOL_BASE :=
  (m.tools.find? (fun p => p.1 == aId)).map (·.2)

/-- Modelled from the spec: `FindTool(const std::string& aName)` searches
for a tool with the given name, returning `none` on a miss. -/
def FindToolByName (m : TOOL_MANAGER) (aName : String) : Option TOOL_BASE :=
  (m.tools.find? (fun p => p.2.name == aName)).map (·.2)

/-- Modelled from the spec: `ResetTool` clears the tool's pending
transitions and cancels any outstanding suspended wait — resuming it
exactly once with the absent result (logged as `(id, none)`) and discarding
further progress — then calls the tool's `Reset()`, which re-declares the
tool's initial transitions.  Safe on an active tool; does not touch the
Activation Stack. -/
def ResetTool (m : TOOL_MANAGER) (aTool : TOOL_BASE) : TOOL_MANAGER :=
  let id := MakeToolId aTool.name
  match lookupState m id with
  | none => m
  | some st =>
    let m₁ :=
      match st.pendingWait with
      | some _ => { m with resumeLog := m.resumeLog ++ [(id, none)] }
      | none => m
    setState m₁ id { transitions := aTool.resetTransitions, pendingWait := none }

/-- `PassEvent`, embedded from the header's inline body:
`void PassEvent() { m_passEvent = true; }`. -/
def PassEvent (m : TOOL_MANAGER) : TOOL_MANAGER :=
  { m with m_passEvent := true }

/-- Modelled from the spec: run the synchronous portion of a handler to
completion or to its next suspension point.  `ScheduleNextState` appends an
independent transition to the tool's runtime state; `PassEvent` sets the
manager-wide pass flag; `ScheduleWait` parks the handler, recording the
wait's condition-set and continuation. -/
def runHandler : HPROG → TOOL_STATE → Bool → TOOL_STATE × Bool
  | .done, st, p => (st, p)
  | .scheduleNext conds h next, st, p =>
      runHandler next { st with transitions := st.transitions ++ [(conds, h)] } p
  | .pass next, st, _ => runHandler next st true
  | .wait conds k, st, p => ({ st with pendingWait := some (conds, k) }, p)

/-- First transition of the list whose condition-set matches the event,
with the list around it (`before`, matched, `after`). -/
def splitFirstMatch (e : TOOL_EVENT) :
    List TRANSITION → Option (List TRANSITION × TRANSITION × List TRANSITION)
  | [] => none
  | tr :: rest =>
    if listMatches tr.1 e then
      some ([], tr, rest)
    else
      (splitFirstMatch e rest).map (fun (b, m, a) => (tr :: b, m, a))

/-- Modelled from the spec: does the tool at a stack position match the
event — an outstanding suspended wait whose condition-set matches, or a
pending transition whose condition-set matches? -/
def toolAccepts (st : TOOL_STATE) (e : TOOL_EVENT) : Bool :=
  (match st.pendingWait with
   | some (cs, _) => listMatches cs e
   | none => false)
  || st.transitions.any (fun tr => listMatches tr.1 e)

/-- Modelled from the spec: does the tool registered at stack position `i`
match the event (a position whose tool is unknown matches nothing)? -/
def stackToolAccepts (m : TOOL_MANAGER) (i : TOOL_ID) (e : TOOL_EVENT) : Bool :=
  match lookupState m i with
  | some st => toolAccepts st e
  | none => false

/-- Modelled from the spec: the fresh-transition branch of the per-tool
dispatch step — the first pending transition whose condition-set matches is
consumed (removed from the pending set before the handler is invoked) and
its handler runs fresh; `none` when no pending transition matches. -/
def matchTransition (e : TOOL_EVENT) (st : TOOL_STATE) (m : TOOL_MANAGER) :
    Option (TOOL_STATE × TOOL_MANAGER) :=
  match splitFirstMatch e st.transitions with
  | none => none
  | some (before, tr, after) =>
    let r := runHandler tr.2 { st with transitions := before ++ after } false
    some (r.1, if r.2 then PassEvent m else m)

/-- Modelled from the spec: deliver the event to one tool.  An outstanding
suspended wait whose condition-set matches is checked first and resumed
with the event (logged `(id, some e)`); otherwise the first pending
transition whose condition-set matches is consumed — removed before its
handler is invoked fresh.  Returns `none` when the tool does not match. -/
def handleTool (e : TOOL_EVENT) (id : TOOL_ID) (st : TOOL_STATE) (m : TOOL_MANAGER) :
    Option (TOOL_STATE × TOOL_MANAGER) :=
  match st.pendingWait with
  | some (cs, k) =>
    if listMatches cs e then
      let m₁ := { m with resumeLog := m.resumeLog ++ [(id, some e)] }
      let r := runHandler k { st with pendingWait := none } false
      some (r.1, if r.2 then PassEvent m₁ else m₁)
    else
      matchTransition e st m
  | none => matchTransition e st m

/-- Modelled from the spec: `finishTool` — if after its handler ran the tool
declared no further transitions and holds no wait, it is treated as
inactive and removed from the Activation Stack. -/
def finishTool (m : TOOL_MANAGER) (id : TOOL_ID) (st : TOOL_STATE) : TOOL_MANAGER :=
  if st.transitions.isEmpty && st.pendingWait.isNone then
    { m with m_activeTools := m.m_activeTools.filter (fun x => ¬ x = id) }
  else
    m

/-- Modelled from the spec: the stack walk of `dispatchInternal` — visit the
given ids (top of the Activation Stack first); at the first matching tool,
deliver the event, store the tool's updated state, apply `finishTool`, and
stop unless that tool's handler requested pass-through, in which case the
walk continues to the lower tools with the same event.  Returns whether any
tool consumed the event, with the final manager state. -/
def dispatchLoop (e : TOOL_EVENT) : List TOOL_ID → TOOL_MANAGER → Bool → Bool × TOOL_MANAGER
  | [], m, handled => (handled, m)
  | id :: rest, m, handled =>
    match lookupState m id with
    | none => dispatchLoop e rest m handled
    | some st =>
      match handleTool e id st m with
      | none => dispatchLoop e rest m handled
      | some (st', m') =>
        let m₂ := finishTool (setState m' id st') id st'
        if m₂.m_passEvent then
          dispatchLoop e rest { m₂ with m_passEvent := false } true
        else
          (true, m₂)

/-- Modelled from the spec: `ProcessEvent` — reset the per-event pass flag,
then walk the Activation Stack from top to bottom delivering the event;
returns whether the event was consumed. -/
def ProcessEvent (m : TOOL_MANAGER) (e : TOOL_EVENT) : Bool × TOOL_MANAGER :=
  let m₀ := { m with m_passEvent := false }
  dispatchLoop e m₀.m_activeTools m₀ false

/-- Category tag reserved for the internal tool-activation event
(`TA_ActivateTool`); the action carries the target tool's id so only that
tool's entry transition matches. -/
def activateCategory : Nat := 0

/-- The internal "activate" event synthesized by `InvokeTool`. -/
def activateEvent (id : TOOL_ID) : TOOL_EVENT :=
  { category := activateCategory, action := id }

/-- Modelled from the spec: `InvokeTool(TOOL_ID)` — look up the tool,
returning `false` with the manager unchanged when unknown; otherwise push
it onto the Activation Stack (re-activating at top if already active, so a
ToolId never appears twice) and deliver the internal activate event so its
entry handler can run. -/
def InvokeToolById (m : TOOL_MANAGER) (aToolId : TOOL_ID) : Bool × TOOL_MANAGER :=
  match FindToolById m aToolId with
  | none => (false, m)
  | some _ =>
    let m₁ := { m with m_activeTools :=
      aToolId :: m.m_activeTools.filter (fun x => ¬ x = aToolId) }
    (true, (ProcessEvent m₁ (activateEvent aToolId)).2)

/-- Modelled from the spec: `InvokeTool(const std::string&)` — resolve the
name to the tool's id and invoke; `false` with the state unchanged when the
name is unknown. -/
def InvokeToolByName (m : TOOL_MANAGER) (aName : String) : Bool × TOOL_MANAGER :=
  match FindToolByName m aName with
  | none => (false, m)
  | some t => InvokeToolById m (MakeToolId t.name)

/-! ### Characterization of handler runs -/

/-- Transitions a handler declares (via `ScheduleNextState`) during its
synchronous portion, in order, before it returns or parks. -/
def declared : HPROG → List TRANSITION
  | .done => []
  | .scheduleNext conds h next => (conds, h) :: declared next
  | .pass next => declared next
  | .wait _ _ => []

/-- The wait a handler parks on at the end of its synchronous portion,
if it suspends rather than running to completion. -/
def waitOf : HPROG → Option (TOOL_EVENT_LIST × HPROG)
  | .done => none
  | .scheduleNext _ _ next => waitOf next
  | .pass next => waitOf next
  | .wait conds k => some (conds, k)

/-- Whether the handler calls `PassEvent` during its synchronous portion. -/
def passes : HPROG → Bool
  | .done => false
  | .scheduleNext _ _ next => passes next
  | .pass _ => true
  | .wait _ _ => false

/-! ### Concrete sample data for evaluating the model -/

/-- Sample tool "A" whose `Reset()` declares no transitions. -/
def tA : TOOL_BASE := { name := "A", resetTransitions := [] }

/-- Sample tool "B". -/
def tB : TOOL_BASE := { name := "B", resetTransitions := [] }

/-- Sample tool "C". -/
def tC : TOOL_BASE := { name := "C", resetTransitions := [] }

/-- A sample input event, category 1 (INPUT) action 2 (CLICK). -/
def eClick : TOOL_EVENT := { category := 1, action := 2 }

/-- A condition-set accepting exactly `(1, 2)` events. -/
def csClick : TOOL_EVENT_LIST := [{ category := some 1, action := some 2 }]

/-- Manager whose only active tool (id 10, top) has one fresh transition on
`csClick` whose handler runs to completion without scheduling anything. -/
def mDone : TOOL_MANAGER :=
  { tools := [(10, tA)],
    toolStates := [(10, { transitions := [(csClick, HPROG.done)], pendingWait := none })],
    m_activeTools := [10],
    m_passEvent := false,
    resumeLog := [] }

/-- Manager whose only active tool (id 10) has one fresh transition on
`csClick` whose handler re-declares a transition before returning. -/
def mKeep : TOOL_MANAGER :=
  { tools := [(10, tA)],
    toolStates :=
      [(10, { transitions := [(csClick, HPROG.scheduleNext csClick HPROG.done HPROG.done)],
              pendingWait := none })],
    m_activeTools := [10],
    m_passEvent := false,
    resumeLog := [] }

/-- Manager where both active tools match `csClick`; the top one (id 10)
passes the event through, the lower one (id 20) consumes it. -/
def mPass : TOOL_MANAGER :=
  { tools := [(10, tA), (20, tB)],
    toolStates :=
      [(10, { transitions := [(csClick, HPROG.pass HPROG.done)], pendingWait := none }),
       (20, { transitions := [(csClick, HPROG.done)], pendingWait := none })],
    m_activeTools := [10, 20],
    m_passEvent := false,
    resumeLog := [] }

/-- Manager where the top tool (id 10) matches nothing and the lower tool
(id 20) has a matching transition. -/
def mSkip : TOOL_MANAGER :=
  { tools := [(10, tA), (20, tB)],
    toolStates :=
      [(10, { transitions := [], pendingWait := none }),
       (20, { transitions := [(csClick, HPROG.done)], pendingWait := none })],
    m_activeTools := [10, 20],
    m_passEvent := false,
    resumeLog := [] }

/-- Manager whose only active tool (id 10) holds a suspended wait on
`csClick` and also a pending fresh transition on `csClick`. -/
def mWait : TOOL_MANAGER :=
  { tools := [(10, tA)],
    toolStates := [(10, { transitions := [(csClick, HPROG.done)],
                          pendingWait := some (csClick, HPROG.done) })],
    m_activeTools := [10],
    m_passEvent := false,
    resumeLog := [] }

/-- Like `mWait` but with a non-matching tool (id 5) above the waiting
tool on the Activation Stack. -/
def mWait2 : TOOL_MANAGER :=
  { tools := [(5, tB), (10, tA)],
    toolStates := [(5, { transitions := [], pendingWait := none }),
                   (10, { transitions := [], pendingWait := some (csClick, HPROG.done) })],
    m_activeTools := [5, 10],
    m_passEvent := false,
    resumeLog := [] }

/-- Manager holding tool "A" under its hashed id with an outstanding
suspended wait, for exercising `ResetTool` cancellation. -/
def mWaitA : TOOL_MANAGER :=
  { tools := [(MakeToolId "A", tA)],
    toolStates := [(MakeToolId "A",
      { transitions := [], pendingWait := some (csClick, HPROG.done) })],
    m_activeTools := [MakeToolId "A"],
    m_passEvent := false,
    resumeLog := [] }

/-- The manager obtained by registering tool "A" into the fresh manager. -/
def regA : TOOL_MANAGER :=
  { tools := [(MakeToolId "A", tA)],
    toolStates := [(MakeToolId "A", { transitions := [], pendingWait := none })],
    m_activeTools := [],
    m_passEvent := false,
    resumeLog := [] }

/-- The manager obtained by registering tools "A" then "B". -/
def regAB : TOOL_MANAGER :=
  { tools := [(MakeToolId "A", tA), (MakeToolId "B", tB)],
    toolStates := [(MakeToolId "A", { transitions := [], pendingWait := none }),
                   (MakeToolId "B", { transitions := [], pendingWait := none })],
    m_activeTools := [],
    m_passEvent := false,
    resumeLog := [] }


lemma runHandler_transitions (h : HPROG) (st : TOOL_STATE) (p : Bool) :
    (runHandler h st p).1.transitions = st.transitions ++ declared h := by
  induction h generalizing st p with
  | done => simp [runHandler, declared]
  | scheduleNext conds hh next ih₁ ih₂ => simp [runHandler, declared, ih₂]
  | pass next ih => simp [runHandler, declared, ih]
  | wait conds k ih => simp [runHandler, declared]

lemma runHandler_wait (h : HPROG) (st : TOOL_STATE) (p : Bool) :
    (runHandler h st p).1.pendingWait =
      (match waitOf h with
       | some w => some w
       | none => st.pendingWait) := by
  induction h generalizing st p with
  | done => simp [runHandler, waitOf]
  | scheduleNext conds hh next ih₁ ih₂ => simp [runHandler, waitOf, ih₂]
  | pass next ih => simp [runHandler, waitOf, ih]
  | wait conds k ih => simp [runHandler, waitOf]

lemma runHandler_pass (h : HPROG) (st : TOOL_STATE) (p : Bool) :
    (runHandler h st p).2 = (p || passes h) := by
  induction h generalizing st p with
  | done => simp [runHandler, passes]
  | scheduleNext conds hh next ih₁ ih₂ => simp [runHandler, passes, ih₂]
  | pass next ih => simp [runHandler, passes, ih]
  | wait conds k ih => simp [runHandler, passes]

/-! ### Basic lemmas about state lookup and update -/

lemma find_set_self (l : List (TOOL_ID × TOOL_STATE)) (id : TOOL_ID) (st : TOOL_STATE)
    (h : (l.find? (fun p => p.1 == id)).isSome = true) :
    (l.map (fun p => if p.1 = id then (id, st) else p)).find? (fun p => p.1 == id)
      = some (id, st) := by
  induction l with
  | nil => simp at h
  | cons hd tl ih =>
    by_cases hk : hd.1 = id
    · simp [hk]
    · have h' : (tl.find? (fun p => p.1 == id)).isSome = true := by
        rw [List.find?_cons_of_neg] at h
        · exact h
        · simp [hk]
      simp only [List.map_cons, if_neg hk]
      rw [List.find?_cons_of_neg]
      · exact ih h'
      · simp [hk]

lemma find_set_other (l : List (TOOL_ID × TOOL_STATE)) (id id' : TOOL_ID)
    (st : TOOL_STATE) (hne : id' ≠ id) :
    (l.map (fun p => if p.1 = id then (id, st) else p)).find? (fun p => p.1 == id')
      = l.find? (fun p => p.1 == id') := by
  induction l with
  | nil => simp
  | cons hd tl ih =>
    by_cases hk : hd.1 = id
    · have e1 : (((id, st) : TOOL_ID × TOOL_STATE).1 == id') = false := by
        simp only [beq_eq_false_iff_ne, ne_eq]
        exact fun he => hne he.symm
      have e2 : ((hd.1 : TOOL_ID) == id') = false := by
        simp only [beq_eq_false_iff_ne, ne_eq, hk]
        exact fun he => hne he.symm
      simp only [List.map_cons, if_pos hk, List.find?, e1, e2]
      exact ih
    · by_cases hk' : hd.1 = id'
      · have e : ((hd.1 : TOOL_ID) == id') = true := by simp [hk']
        simp only [List.map_cons, if_neg hk, List.find?, e]
      · have e : ((hd.1 : TOOL_ID) == id') = false := by simp [hk']
        simp only [List.map_cons, if_neg hk, List.find?, e]
        exact ih

lemma lookupState_setState_self (m : TOOL_MANAGER) (id : TOOL_ID)
    (st₀ st : TOOL_STATE) (h : lookupState m id = some st₀) :
    lookupState (setState m id st) id = some st := by
  unfold lookupState at h
  have hs : (m.toolStates.find? (fun p => p.1 == id)).isSome = true := by
    cases hf : m.toolStates.find? (fun p => p.1 == id) with
    | none => rw [hf] at h; simp at h
    | some a => simp
  unfold lookupState setState
  simp only
  rw [find_set_self m.toolStates id st hs]
  rfl

lemma lookupState_setState_other (m : TOOL_MANAGER) (id id' : TOOL_ID)
    (st : TOOL_STATE) (hne : id' ≠ id) :
    lookupState (setState m id st) id' = lookupState m id' := by
  unfold lookupState setState
  simp only
  rw [find_set_other m.toolStates id id' st hne]

/-! ### Lemmas about the per-tool dispatch step -/

lemma splitFirstMatch_none (e : TOOL_EVENT) (l : List TRANSITION) :
    splitFirstMatch e l = none ↔ l.any (fun tr => listMatches tr.1 e) = false := by
  induction l with
  | nil => simp [splitFirstMatch]
  | cons hd tl ih =>
    by_cases hm : listMatches hd.1 e
    · simp [splitFirstMatch, hm]
    · simp [splitFirstMatch, hm, ih]

lemma matchTransition_none_iff (e : TOOL_EVENT) (st : TOOL_STATE) (m : TOOL_MANAGER) :
    matchTransition e st m = none ↔
      st.transitions.any (fun tr => listMatches tr.1 e) = false := by
  unfold matchTransition
  cases hs : splitFirstMatch e st.transitions with
  | none => simp [(splitFirstMatch_none e st.transitions).mp hs]
  | some x =>
    constructor
    · intro h; simp at h
    · intro h
      have h2 := (splitFirstMatch_none e st.transitions).mpr h
      rw [h2] at hs
      simp at hs

lemma handleTool_none_iff (e : TOOL_EVENT) (id : TOOL_ID) (st : TOOL_STATE)
    (m : TOOL_MANAGER) :
    handleTool e id st m = none ↔ toolAccepts st e = false := by
  unfold handleTool toolAccepts
  cases hpw : st.pendingWait with
  | none => simp [matchTransition_none_iff]
  | some w =>
    obtain ⟨cs, k⟩ := w
    by_cases hm : listMatches cs e
    · simp [hm]
    · simp [hm, matchTransition_none_iff]

lemma matchTransition_frame (e : TOOL_EVENT) (st : TOOL_STATE) (m : TOOL_MANAGER)
    (st' : TOOL_STATE) (m' : TOOL_MANAGER)
    (h : matchTransition e st m = some (st', m')) :
    m'.tools = m.tools ∧ m'.toolStates = m.toolStates ∧
    m'.m_activeTools = m.m_activeTools ∧ m'.resumeLog = m.resumeLog := by
  unfold matchTransition at h
  cases hs : splitFirstMatch e st.transitions with
  | none => rw [hs] at h; simp at h
  | some x =>
    obtain ⟨before, tr, after⟩ := x
    rw [hs] at h
    simp only [Option.some.injEq, Prod.mk.injEq] at h
    obtain ⟨h1, h2⟩ := h
    subst h2
    by_cases hp : (runHandler tr.2 { st with transitions := before ++ after } false).2
    · simp [hp, PassEvent]
    · simp [hp]

lemma handleTool_frame (e : TOOL_EVENT) (id : TOOL_ID) (st : TOOL_STATE)
    (m : TOOL_MANAGER) (st' : TOOL_STATE) (m' : TOOL_MANAGER)
    (h : handleTool e id st m = some (st', m')) :
    m'.tools = m.tools ∧ m'.toolStates = m.toolStates ∧
    m'.m_activeTools = m.m_activeTools ∧
    (m'.resumeLog = m.resumeLog ∨ m'.resumeLog = m.resumeLog ++ [(id, some e)]) := by
  unfold handleTool at h
  split at h
  next cs k heq =>
    split at h
    next hm =>
      dsimp only at h
      simp only [Option.some.injEq, Prod.mk.injEq] at h
      obtain ⟨h1, h2⟩ := h
      subst h2
      by_cases hp : (runHandler k { st with pendingWait := none } false).2
      · simp [hp, PassEvent]
      · simp [hp]
    next hm =>
      have := matchTransition_frame e st m st' m' h
      exact ⟨this.1, this.2.1, this.2.2.1, Or.inl this.2.2.2⟩
  next heq =>
    have := matchTransition_frame e st m st' m' h
    exact ⟨this.1, this.2.1, this.2.2.1, Or.inl this.2.2.2⟩

lemma setState_fields (m : TOOL_MANAGER) (id : TOOL_ID) (st : TOOL_STATE) :
    (setState m id st).tools = m.tools ∧
    (setState m id st).m_activeTools = m.m_activeTools ∧
    (setState m id st).m_passEvent = m.m_passEvent ∧
    (setState m id st).resumeLog = m.resumeLog := by
  unfold setState; exact ⟨rfl, rfl, rfl, rfl⟩

lemma finishTool_fields (m : TOOL_MANAGER) (id : TOOL_ID) (st : TOOL_STATE) :
    (finishTool m id st).tools = m.tools ∧
    (finishTool m id st).toolStates = m.toolStates ∧
    (finishTool m id st).m_passEvent = m.m_passEvent ∧
    (finishTool m id st).resumeLog = m.resumeLog := by
  unfold finishTool
  by_cases hc : st.transitions.isEmpty && st.pendingWait.isNone
  · simp [hc]
  · simp [hc]

lemma finishTool_active (m : TOOL_MANAGER) (id : TOOL_ID) (st : TOOL_STATE) :
    (finishTool m id st).m_activeTools =
      (if st.transitions.isEmpty && st.pendingWait.isNone then
        m.m_activeTools.filter (fun x => ¬ x = id)
       else m.m_activeTools) := by
  unfold finishTool
  by_cases hc : st.transitions.isEmpty && st.pendingWait.isNone
  · simp [hc]
  · simp [hc]

/-! ### Lemmas about the stack walk -/

lemma dispatchLoop_cons_unknown (e : TOOL_EVENT) (id : TOOL_ID) (rest : List TOOL_ID)
    (m : TOOL_MANAGER) (hd : Bool) (h1 : lookupState m id = none) :
    dispatchLoop e (id :: rest) m hd = dispatchLoop e rest m hd := by
  simp [dispatchLoop, h1]

lemma dispatchLoop_cons_skip (e : TOOL_EVENT) (id : TOOL_ID) (rest : List TOOL_ID)
    (m : TOOL_MANAGER) (hd : Bool) (st : TOOL_STATE)
    (h1 : lookupState m id = some st) (h2 : handleTool e id st m = none) :
    dispatchLoop e (id :: rest) m hd = dispatchLoop e rest m hd := by
  simp [dispatchLoop, h1, h2]

lemma dispatchLoop_cons_match (e : TOOL_EVENT) (id : TOOL_ID) (rest : List TOOL_ID)
    (m : TOOL_MANAGER) (hd : Bool) (st st' : TOOL_STATE) (m' : TOOL_MANAGER)
    (h1 : lookupState m id = some st) (h2 : handleTool e id st m = some (st', m')) :
    dispatchLoop e (id :: rest) m hd =
      if m'.m_passEvent then
        dispatchLoop e rest
          { finishTool (setState m' id st') id st' with m_passEvent := false } true
      else (true, finishTool (setState m' id st') id st') := by
  have hpe : (finishTool (setState m' id st') id st').m_passEvent = m'.m_passEvent := by
    rw [(finishTool_fields _ _ _).2.2.1, (setState_fields _ _ _).2.2.1]
  simp only [dispatchLoop, h1, h2, hpe]

lemma dispatchLoop_handled (e : TOOL_EVENT) (ids : List TOOL_ID) :
    ∀ (m : TOOL_MANAGER), (dispatchLoop e ids m true).1 = true := by
  induction ids with
  | nil => intro m; rfl
  | cons id rest ih =>
    intro m
    cases hl : lookupState m id with
    | none => rw [dispatchLoop_cons_unknown e id rest m true hl]; exact ih m
    | some st =>
      cases hh : handleTool e id st m with
      | none => rw [dispatchLoop_cons_skip e id rest m true st hl hh]; exact ih m
      | some pr =>
        obtain ⟨st', m'⟩ := pr
        rw [dispatchLoop_cons_match e id rest m true st st' m' hl hh]
        split
        · exact ih _
        · rfl

lemma dispatchLoop_active_subset (e : TOOL_EVENT) (ids : List TOOL_ID) :
    ∀ (m : TOOL_MANAGER) (hd : Bool) (x : TOOL_ID),
      x ∈ (dispatchLoop e ids m hd).2.m_activeTools → x ∈ m.m_activeTools := by
  induction ids with
  | nil => intro m hd x hx; exact hx
  | cons id rest ih =>
    intro m hd x
    cases hl : lookupState m id with
    | none => rw [dispatchLoop_cons_unknown e id rest m hd hl]; exact ih m hd x
    | some st =>
      cases hh : handleTool e id st m with
      | none => rw [dispatchLoop_cons_skip e id rest m hd st hl hh]; exact ih m hd x
      | some pr =>
        obtain ⟨st', m'⟩ := pr
        rw [dispatchLoop_cons_match e id rest m hd st st' m' hl hh]
        have hsub : ∀ y : TOOL_ID,
            y ∈ (finishTool (setState m' id st') id st').m_activeTools →
            y ∈ m.m_activeTools := by
          intro y hy
          rw [finishTool_active] at hy
          have hact : (setState m' id st').m_activeTools = m.m_activeTools := by
            rw [(setState_fields _ _ _).2.1,
                (handleTool_frame e id st m st' m' hh).2.2.1]
          split at hy
          · rw [hact] at hy; exact List.mem_of_mem_filter hy
          · rw [hact] at hy; exact hy
        split
        · intro hx
          exact hsub x (ih { finishTool (setState m' id st') id st' with m_passEvent := false } true x hx)
        · intro hx
          exact hsub x hx

lemma dispatchLoop_keeps_active (e : TOOL_EVENT) (ids : List TOOL_ID) :
    ∀ (m : TOOL_MANAGER) (hd : Bool) (x : TOOL_ID),
      x ∈ m.m_activeTools → x ∉ ids →
      x ∈ (dispatchLoop e ids m hd).2.m_activeTools := by
  induction ids with
  | nil => intro m hd x hx _; exact hx
  | cons id rest ih =>
    intro m hd x hx hni
    have hne : x ≠ id := fun he => hni (he ▸ List.mem_cons_self id rest)
    have hnr : x ∉ rest := fun hr => hni (List.mem_cons_of_mem id hr)
    cases hl : lookupState m id with
    | none => rw [dispatchLoop_cons_unknown e id rest m hd hl]; exact ih m hd x hx hnr
    | some st =>
      cases hh : handleTool e id st m with
      | none => rw [dispatchLoop_cons_skip e id rest m hd st hl hh]; exact ih m hd x hx hnr
      | some pr =>
        obtain ⟨st', m'⟩ := pr
        rw [dispatchLoop_cons_match e id rest m hd st st' m' hl hh]
        have hx₂ : x ∈ (finishTool (setState m' id st') id st').m_activeTools := by
          rw [finishTool_active]
          have hact : (setState m' id st').m_activeTools = m.m_activeTools := by
            rw [(setState_fields _ _ _).2.1,
                (handleTool_frame e id st m st' m' hh).2.2.1]
          split
          · rw [hact]
            exact List.mem_filter.mpr ⟨hx, by simp [hne]⟩
          · rw [hact]; exact hx
        split
        · exact ih { finishTool (setState m' id st') id st' with m_passEvent := false } true x hx₂ hnr
        · exact hx₂

lemma dispatchLoop_log_frame (e : TOOL_EVENT) (ids : List TOOL_ID) :
    ∀ (m : TOOL_MANAGER) (hd : Bool) (x : TOOL_ID), x ∉ ids →
      ((dispatchLoop e ids m hd).2.resumeLog).filter (fun en => en.1 == x)
        = (m.resumeLog).filter (fun en => en.1 == x) := by
  induction ids with
  | nil => intro m hd x _; rfl
  | cons id rest ih =>
    intro m hd x hni
    have hne : x ≠ id := fun he => hni (he ▸ List.mem_cons_self id rest)
    have hnr : x ∉ rest := fun hr => hni (List.mem_cons_of_mem id hr)
    cases hl : lookupState m id with
    | none => rw [dispatchLoop_cons_unknown e id rest m hd hl]; exact ih m hd x hnr
    | some st =>
      cases hh : handleTool e id st m with
      | none => rw [dispatchLoop_cons_skip e id rest m hd st hl hh]; exact ih m hd x hnr
      | some pr =>
        obtain ⟨st', m'⟩ := pr
        rw [dispatchLoop_cons_match e id rest m hd st st' m' hl hh]
        have hlog : ((finishTool (setState m' id st') id st').resumeLog).filter
            (fun en => en.1 == x) = (m.resumeLog).filter (fun en => en.1 == x) := by
          rw [(finishTool_fields _ _ _).2.2.2, (setState_fields _ _ _).2.2.2]
          rcases (handleTool_frame e id st m st' m' hh).2.2.2 with hl' | hl'
          · rw [hl']
          · rw [hl', List.filter_append]
            have hnil : ([((id : TOOL_ID), some e)].filter (fun en => en.1 == x)) = [] := by
              simp [Ne.symm hne]
            rw [hnil, List.append_nil]
        split
        · rw [ih { finishTool (setState m' id st') id st' with m_passEvent := false } true x hnr]; exact hlog
        · exact hlog

lemma dispatchLoop_nodup (e : TOOL_EVENT) (ids : List TOOL_ID) :
    ∀ (m : TOOL_MANAGER) (hd : Bool), m.m_activeTools.Nodup →
      (dispatchLoop e ids m hd).2.m_activeTools.Nodup := by
  induction ids with
  | nil => intro m hd hn; exact hn
  | cons id rest ih =>
    intro m hd hn
    cases hl : lookupState m id with
    | none => rw [dispatchLoop_cons_unknown e id rest m hd hl]; exact ih m hd hn
    | some st =>
      cases hh : handleTool e id st m with
      | none => rw [dispatchLoop_cons_skip e id rest m hd st hl hh]; exact ih m hd hn
      | some pr =>
        obtain ⟨st', m'⟩ := pr
        rw [dispatchLoop_cons_match e id rest m hd st st' m' hl hh]
        have hn₂ : (finishTool (setState m' id st') id st').m_activeTools.Nodup := by
          rw [finishTool_active]
          have hact : (setState m' id st').m_activeTools = m.m_activeTools := by
            rw [(setState_fields _ _ _).2.1,
                (handleTool_frame e id st m st' m' hh).2.2.1]
          split
          · rw [hact]; exact hn.filter _
          · rw [hact]; exact hn
        split
        · exact ih { finishTool (setState m' id st') id st' with m_passEvent := false } true hn₂
        · exact hn₂

/-! ### Branch characterizations and registry lemmas -/

lemma handleTool_resume (e : TOOL_EVENT) (id : TOOL_ID) (st : TOOL_STATE)
    (m : TOOL_MANAGER) (cs : TOOL_EVENT_LIST) (k : HPROG)
    (hw : st.pendingWait = some (cs, k)) (hm : listMatches cs e = true) :
    handleTool e id st m = some ((runHandler k { st with pendingWait := none } false).1,
      if (runHandler k { st with pendingWait := none } false).2 then
        PassEvent { m with resumeLog := m.resumeLog ++ [(id, some e)] }
      else { m with resumeLog := m.resumeLog ++ [(id, some e)] }) := by
  unfold handleTool
  rw [hw]
  dsimp only
  rw [if_pos hm]

lemma handleTool_fresh (e : TOOL_EVENT) (id : TOOL_ID) (st : TOOL_STATE)
    (m : TOOL_MANAGER) (b : List TRANSITION) (tr : TRANSITION) (a : List TRANSITION)
    (hw : st.pendingWait = none)
    (hs : splitFirstMatch e st.transitions = some (b, tr, a)) :
    handleTool e id st m =
      some ((runHandler tr.2 { st with transitions := b ++ a } false).1,
        if (runHandler tr.2 { st with transitions := b ++ a } false).2 then
          PassEvent m
        else m) := by
  unfold handleTool matchTransition
  rw [hw]
  dsimp only
  rw [hs]

lemma splitFirstMatch_sound (e : TOOL_EVENT) (l : List TRANSITION)
    (b : List TRANSITION) (tr : TRANSITION) (a : List TRANSITION)
    (h : splitFirstMatch e l = some (b, tr, a)) :
    l = b ++ tr :: a ∧ listMatches tr.1 e = true ∧
    ∀ x ∈ b, listMatches x.1 e = false := by
  induction l generalizing b tr a with
  | nil => simp [splitFirstMatch] at h
  | cons hd tl ih =>
    by_cases hm : listMatches hd.1 e
    · unfold splitFirstMatch at h
      rw [if_pos hm] at h
      simp only [Option.some.injEq, Prod.mk.injEq] at h
      obtain ⟨hb, htr, ha⟩ := h
      subst hb; subst htr; subst ha
      exact ⟨rfl, hm, by intro x hx; simp at hx⟩
    · unfold splitFirstMatch at h
      rw [if_neg hm] at h
      cases hrec : splitFirstMatch e tl with
      | none => rw [hrec] at h; simp at h
      | some x =>
        obtain ⟨b', tr', a'⟩ := x
        rw [hrec] at h
        simp only [Option.map_some', Option.some.injEq, Prod.mk.injEq] at h
        obtain ⟨ih1, ih2, ih3⟩ := ih b' tr' a' hrec
        obtain ⟨hb, htr, ha⟩ := h
        subst htr; subst ha; subst hb
        constructor
        · simp [ih1]
        constructor
        · exact ih2
        · intro x hx
          rcases List.mem_cons.mp hx with hx | hx
          · subst hx; simpa using hm
          · exact ih3 x hx

lemma cons_filter_nodup (l : List TOOL_ID) (id : TOOL_ID) (h : l.Nodup) :
    (id :: l.filter (fun x => ¬ x = id)).Nodup := by
  refine List.nodup_cons.mpr ⟨?_, h.filter _⟩
  intro hmem
  have := (List.mem_filter.mp hmem).2
  simp at this

lemma RegisterTool_success (m : TOOL_MANAGER) (t : TOOL_BASE) (mr : TOOL_MANAGER)
    (h : RegisterTool m t = some mr) :
    (∀ p ∈ m.tools, ¬ p.1 = MakeToolId t.name ∧ ¬ p.2.name = t.name) ∧
    mr = { m with
      tools := m.tools ++ [(MakeToolId t.name, t)],
      toolStates := m.toolStates ++
        [(MakeToolId t.name,
          { transitions := t.resetTransitions, pendingWait := none })] } := by
  unfold RegisterTool at h
  dsimp only at h
  split at h
  · exact absurd h (by simp)
  · next hguard =>
    constructor
    · intro p hp
      have hg : (m.tools.any
          fun p => p.1 == MakeToolId t.name || p.2.name == t.name) = false :=
        Bool.eq_false_iff.mpr hguard
      have := List.any_eq_false.mp hg p hp
      simp only [Bool.or_eq_true, beq_iff_eq, not_or] at this
      exact this
    · injection h with h2
      exact h2.symm

/-! ### Further helper lemmas -/

lemma ProcessEvent_eq (m : TOOL_MANAGER) (e : TOOL_EVENT) :
    ProcessEvent m e
      = dispatchLoop e m.m_activeTools { m with m_passEvent := false } false := rfl

lemma ProcessEvent_cons (m : TOOL_MANAGER) (e : TOOL_EVENT) (id : TOOL_ID)
    (rest : List TOOL_ID) (hstack : m.m_activeTools = id :: rest) :
    ProcessEvent m e
      = dispatchLoop e (id :: rest) { m with m_passEvent := false } false := by
  rw [ProcessEvent_eq]
  exact congrArg
    (fun ids => dispatchLoop e ids { m with m_passEvent := false } false) hstack

lemma dispatchLoop_skip_all (e : TOOL_EVENT) (pre : List TOOL_ID) :
    ∀ (tail : List TOOL_ID) (m : TOOL_MANAGER) (hd : Bool),
      (∀ i ∈ pre, stackToolAccepts m i e = false) →
      dispatchLoop e (pre ++ tail) m hd = dispatchLoop e tail m hd := by
  induction pre with
  | nil => intro tail m hd _; rfl
  | cons i pre ih =>
    intro tail m hd hskip
    have hrest : ∀ j ∈ pre, stackToolAccepts m j e = false :=
      fun j hj => hskip j (List.mem_cons_of_mem i hj)
    have hsa := hskip i (List.mem_cons_self i pre)
    unfold stackToolAccepts at hsa
    cases hl : lookupState m i with
    | none =>
      rw [List.cons_append, dispatchLoop_cons_unknown e i (pre ++ tail) m hd hl]
      exact ih tail m hd hrest
    | some st =>
      rw [hl] at hsa
      dsimp only at hsa
      rw [List.cons_append, dispatchLoop_cons_skip e i (pre ++ tail) m hd st hl
        ((handleTool_none_iff e i st m).mpr hsa)]
      exact ih tail m hd hrest

lemma ProcessEvent_skip_to (m : TOOL_MANAGER) (e : TOOL_EVENT)
    (pre tail : List TOOL_ID) (hstack : m.m_activeTools = pre ++ tail)
    (hskip : ∀ i ∈ pre, stackToolAccepts m i e = false) :
    ProcessEvent m e = dispatchLoop e tail { m with m_passEvent := false } false := by
  rw [ProcessEvent_eq,
      congrArg (fun ids => dispatchLoop e ids { m with m_passEvent := false } false)
        hstack]
  exact dispatchLoop_skip_all e pre tail { m with m_passEvent := false } false hskip

lemma clearPass_resumeLog (m : TOOL_MANAGER) :
    ({ m with m_passEvent := false } : TOOL_MANAGER).resumeLog = m.resumeLog := rfl

lemma clearPass_active (m : TOOL_MANAGER) :
    ({ m with m_passEvent := false } : TOOL_MANAGER).m_activeTools
      = m.m_activeTools := rfl

lemma ProcessEvent_nodup (m : TOOL_MANAGER) (e : TOOL_EVENT)
    (h : m.m_activeTools.Nodup) : (ProcessEvent m e).2.m_activeTools.Nodup := by
  rw [ProcessEvent_eq]
  exact dispatchLoop_nodup e m.m_activeTools { m with m_passEvent := false } false h

lemma FindToolById_eq_none (m : TOOL_MANAGER) (id : TOOL_ID)
    (h : id ∉ m.tools.map (fun p => p.1)) : FindToolById m id = none := by
  unfold FindToolById
  rw [List.find?_eq_none.mpr]
  · rfl
  · intro p hp
    simp only [beq_iff_eq]
    intro he
    exact h (he ▸ List.mem_map_of_mem (fun p => p.1) hp)

lemma FindToolByName_eq_none (m : TOOL_MANAGER) (n : String)
    (h : n ∉ m.tools.map (fun p => p.2.name)) : FindToolByName m n = none := by
  unfold FindToolByName
  rw [List.find?_eq_none.mpr]
  · rfl
  · intro p hp
    simp only [beq_iff_eq]
    intro he
    exact h (he ▸ List.mem_map_of_mem (fun p => p.2.name) hp)

lemma InvokeToolById_nodup (m : TOOL_MANAGER) (id : TOOL_ID)
    (h : m.m_activeTools.Nodup) : (InvokeToolById m id).2.m_activeTools.Nodup := by
  unfold InvokeToolById
  cases hf : FindToolById m id with
  | none => exact h
  | some t =>
    dsimp only
    exact ProcessEvent_nodup _ _ (cons_filter_nodup m.m_activeTools id h)

lemma ResetTool_active (m : TOOL_MANAGER) (t : TOOL_BASE) :
    (ResetTool m t).m_activeTools = m.m_activeTools := by
  unfold ResetTool
  dsimp only
  cases hl : lookupState m (MakeToolId t.name) with
  | none => rfl
  | some st =>
    dsimp only
    cases hpw : st.pendingWait <;> rfl

lemma PassEvent_flag (m : TOOL_MANAGER) : (PassEvent m).m_passEvent = true := rfl

lemma noPass_flag (m : TOOL_MANAGER) (h : m.m_passEvent = false) :
    ¬ m.m_passEvent = true := by
  simp [h]

/-! ### The claims -/

/-- C10: the pass-through signal is a single manager-wide boolean —
`PassEvent` sets `m_passEvent` to `true` and modifies no other manager
state (registry, per-tool runtime states, Activation Stack, resume log all
unchanged), so a call during a dispatch affects only the continuation of
that stack walk, regardless of which tool called it. -/
theorem C10_PassEvent_flag_only :
    ∀ m : TOOL_MANAGER,
      (PassEvent m).m_passEvent = true ∧
      (PassEvent m).tools = m.tools ∧
      (PassEvent m).toolStates = m.toolStates ∧
      (PassEvent m).m_activeTools = m.m_activeTools ∧
      (PassEvent m).resumeLog = m.resumeLog := by
  intro m
  exact ⟨rfl, rfl, rfl, rfl, rfl⟩

/-- C7: `InvokeTool` on an id or name not belonging to a registered tool
returns `false` as a value and leaves the whole manager state (Activation
Stack included) unchanged. -/
theorem C7_invoke_unknown_noop :
    (∀ (m : TOOL_MANAGER) (id : TOOL_ID),
       id ∉ m.tools.map (fun p => p.1) → InvokeToolById m id = (false, m)) ∧
    (∀ (m : TOOL_MANAGER) (n : String),
       n ∉ m.tools.map (fun p => p.2.name) → InvokeToolByName m n = (false, m)) := by
  constructor
  · intro m id h
    unfold InvokeToolById
    rw [FindToolById_eq_none m id h]
  · intro m n h
    unfold InvokeToolByName
    rw [FindToolByName_eq_none m n h]

/-- Witness for C7 at the fresh manager with unregistered id 0 / name "x". -/
theorem C7_witness :
    ((0 : TOOL_ID) ∉ emptyManager.tools.map (fun p => p.1)) ∧
    InvokeToolById emptyManager 0 = (false, emptyManager) ∧
    ("x" ∉ emptyManager.tools.map (fun p => p.2.name)) ∧
    InvokeToolByName emptyManager "x" = (false, emptyManager) :=
  ⟨by decide,
   C7_invoke_unknown_noop.1 emptyManager 0 (by decide),
   by simp [emptyManager],
   C7_invoke_unknown_noop.2 emptyManager "x" (by simp [emptyManager])⟩

/-- C8: after a successful `RegisterTool(tool)`, `FindTool` by the tool's
id and `FindTool` by the tool's name both return that same tool. -/
theorem C8_register_then_find :
    ∀ (m : TOOL_MANAGER) (t : TOOL_BASE) (mr : TOOL_MANAGER),
      RegisterTool m t = some mr →
      FindToolById mr (MakeToolId t.name) = some t ∧
      FindToolByName mr t.name = some t := by
  intro m t mr h
  obtain ⟨hall, hmr⟩ := RegisterTool_success m t mr h
  subst hmr
  constructor
  · unfold FindToolById
    dsimp only
    rw [List.find?_append]
    have h1 : m.tools.find? (fun p => p.1 == MakeToolId t.name) = none :=
      List.find?_eq_none.mpr (fun p hp => by simpa using (hall p hp).1)
    rw [h1]
    simp
  · unfold FindToolByName
    dsimp only
    rw [List.find?_append]
    have h1 : m.tools.find? (fun p => p.2.name == t.name) = none :=
      List.find?_eq_none.mpr (fun p hp => by simpa using (hall p hp).2)
    rw [h1]
    simp

/-- Witness for C8: registering tool "A" into the fresh manager and then
looking it up by id and by name. -/
theorem C8_witness :
    RegisterTool emptyManager tA = some regA ∧
    FindToolById regA (MakeToolId tA.name) = some tA ∧
    FindToolByName regA tA.name = some tA := by
  have h : RegisterTool emptyManager tA = some regA := by decide
  exact ⟨h, (C8_register_then_find emptyManager tA regA h).1,
         (C8_register_then_find emptyManager tA regA h).2⟩

/-- C9: `MakeToolId` is a pure deterministic function of the tool name:
the id a successful registration assigns to a name is `MakeToolId name`
regardless of the registry instance or call; and on the registered tool
inventory distinct names carry distinct ids — registration aborts
(`none`, the fatal configuration error) rather than admit a colliding id,
so the registered-id index stays duplicate-free. -/
theorem C9_MakeToolId_deterministic_injective :
    (∀ (m : TOOL_MANAGER) (t : TOOL_BASE) (mr : TOOL_MANAGER),
       RegisterTool m t = some mr →
       (mr.tools.find? (fun p => p.2.name == t.name)).map (fun p => p.1)
         = some (MakeToolId t.name)) ∧
    (∀ (m : TOOL_MANAGER) (t : TOOL_BASE) (mr : TOOL_MANAGER),
       RegisterTool m t = some mr →
       (m.tools.map (fun p => p.1)).Nodup →
       (mr.tools.map (fun p => p.1)).Nodup) ∧
    (∀ m : TOOL_MANAGER, (m.tools.map (fun p => p.1)).Nodup →
       ∀ p ∈ m.tools, ∀ q ∈ m.tools, p.2.name ≠ q.2.name → p.1 ≠ q.1) := by
  refine ⟨?_, ?_, ?_⟩
  · intro m t mr h
    obtain ⟨hall, hmr⟩ := RegisterTool_success m t mr h
    subst hmr
    dsimp only
    rw [List.find?_append]
    have h1 : m.tools.find? (fun p => p.2.name == t.name) = none :=
      List.find?_eq_none.mpr (fun p hp => by simpa using (hall p hp).2)
    rw [h1]
    simp
  · intro m t mr h hn
    obtain ⟨hall, hmr⟩ := RegisterTool_success m t mr h
    subst hmr
    dsimp only
    rw [List.map_append]
    refine hn.append (by simp) ?_
    intro x hx hx'
    simp only [List.map_cons, List.map_nil, List.mem_singleton] at hx'
    subst hx'
    obtain ⟨p, hp, hpx⟩ := List.mem_map.mp hx
    exact (hall p hp).1 hpx
  · intro m hn p hp q hq hname
    intro hid
    exact hname (congrArg (fun r : TOOL_ID × TOOL_BASE => r.2.name)
      (List.inj_on_of_nodup_map hn hp hq hid))

/-- Witness for C9: registering "A" into the fresh manager assigns id
`MakeToolId "A"`; the id index of the two-tool registry `regAB` is
duplicate-free; and its two distinctly-named tools have distinct ids. -/
theorem C9_witness :
    RegisterTool emptyManager tA = some regA ∧
    (regA.tools.find? (fun p => p.2.name == tA.name)).map (fun p => p.1)
      = some (MakeToolId tA.name) ∧
    (emptyManager.tools.map (fun p => p.1)).Nodup ∧
    (regA.tools.map (fun p => p.1)).Nodup ∧
    (regAB.tools.map (fun p => p.1)).Nodup ∧
    ((MakeToolId "A", tA) ∈ regAB.tools) ∧
    ((MakeToolId "B", tB) ∈ regAB.tools) ∧
    tA.name ≠ tB.name ∧
    MakeToolId "A" ≠ MakeToolId "B" := by
  have hr : RegisterTool emptyManager tA = some regA := by decide
  have hnAB : (regAB.tools.map (fun p => p.1)).Nodup := by decide
  refine ⟨hr,
    C9_MakeToolId_deterministic_injective.1 emptyManager tA regA hr,
    by decide,
    C9_MakeToolId_deterministic_injective.2.1 emptyManager tA regA hr (by decide),
    hnAB, by decide, by decide, by decide,
    C9_MakeToolId_deterministic_injective.2.2 regAB hnAB
      (MakeToolId "A", tA) (by decide) (MakeToolId "B", tB) (by decide) (by decide)⟩

/-- C6: no ToolId appears more than once in the Activation Stack after any
manager operation (`RegisterTool`, `InvokeTool` by id or name,
`ProcessEvent`, `ResetTool`), provided it held before the operation. -/
theorem C6_active_stack_nodup :
    ∀ m : TOOL_MANAGER, m.m_activeTools.Nodup →
      (∀ (t : TOOL_BASE) (mr : TOOL_MANAGER), RegisterTool m t = some mr →
         mr.m_activeTools.Nodup) ∧
      (∀ id : TOOL_ID, (InvokeToolById m id).2.m_activeTools.Nodup) ∧
      (∀ n : String, (InvokeToolByName m n).2.m_activeTools.Nodup) ∧
      (∀ e : TOOL_EVENT, (ProcessEvent m e).2.m_activeTools.Nodup) ∧
      (∀ t : TOOL_BASE, (ResetTool m t).m_activeTools.Nodup) := by
  intro m hn
  refine ⟨?_, ?_, ?_, ?_, ?_⟩
  · intro t mr h
    obtain ⟨hall, hmr⟩ := RegisterTool_success m t mr h
    subst hmr
    exact hn
  · intro id
    exact InvokeToolById_nodup m id hn
  · intro n
    unfold InvokeToolByName
    cases hf : FindToolByName m n with
    | none => exact hn
    | some t =>
      dsimp only
      exact InvokeToolById_nodup m (MakeToolId t.name) hn
  · intro e
    exact ProcessEvent_nodup m e hn
  · intro t
    rw [ResetTool_active]
    exact hn

/-- Witness for C6: the invariant after each operation on the concrete
two-tool manager `mPass` (stack `[10, 20]`). -/
theorem C6_witness :
    mPass.m_activeTools.Nodup ∧
    RegisterTool mPass tC
      = some { mPass with
          tools := mPass.tools ++ [(MakeToolId "C", tC)],
          toolStates := mPass.toolStates ++
            [(MakeToolId "C", { transitions := [], pendingWait := none })] } ∧
    ({ mPass with
        tools := mPass.tools ++ [(MakeToolId "C", tC)],
        toolStates := mPass.toolStates ++
          [(MakeToolId "C", { transitions := [], pendingWait := none })] }
      : TOOL_MANAGER).m_activeTools.Nodup ∧
    (InvokeToolById mPass 10).2.m_activeTools.Nodup ∧
    (InvokeToolByName mPass "A").2.m_activeTools.Nodup ∧
    (ProcessEvent mPass eClick).2.m_activeTools.Nodup ∧
    (ResetTool mPass tA).m_activeTools.Nodup := by
  have hn : mPass.m_activeTools.Nodup := by decide
  have hr : RegisterTool mPass tC
      = some { mPass with
          tools := mPass.tools ++ [(MakeToolId "C", tC)],
          toolStates := mPass.toolStates ++
            [(MakeToolId "C", { transitions := [], pendingWait := none })] } := by
    decide
  obtain ⟨h1, h2, h3, h4, h5⟩ := C6_active_stack_nodup mPass hn
  exact ⟨hn, hr, h1 tC _ hr, h2 10, h3 "A", h4 eClick, h5 tA⟩

/-- C1: the dispatcher walks the Activation Stack top to bottom — a tool
that does not match is skipped and the walk continues below; the topmost
matching tool receives the event and, unless its handler passed, the walk
stops there (the event is consumed); and within one tool an outstanding
suspended wait matching the event is resumed (the event logged as its
yield) in preference to any fresh transition — the pending transitions are
not consumed, only extended by what the resumed handler declares. -/
theorem C1_topmost_wait_first :
    (∀ (m : TOOL_MANAGER) (e : TOOL_EVENT) (id : TOOL_ID) (rest : List TOOL_ID)
       (hd : Bool) (st : TOOL_STATE),
       lookupState m id = some st → toolAccepts st e = false →
       dispatchLoop e (id :: rest) m hd = dispatchLoop e rest m hd) ∧
    (∀ (m : TOOL_MANAGER) (e : TOOL_EVENT) (id : TOOL_ID) (rest : List TOOL_ID)
       (hd : Bool) (st st' : TOOL_STATE) (m' : TOOL_MANAGER),
       lookupState m id = some st →
       handleTool e id st m = some (st', m') → m'.m_passEvent = false →
       dispatchLoop e (id :: rest) m hd
         = (true, finishTool (setState m' id st') id st')) ∧
    (∀ (e : TOOL_EVENT) (id : TOOL_ID) (st : TOOL_STATE) (m : TOOL_MANAGER)
       (cs : TOOL_EVENT_LIST) (k : HPROG),
       st.pendingWait = some (cs, k) → listMatches cs e = true →
       handleTool e id st m
         = some ((runHandler k { st with pendingWait := none } false).1,
             if (runHandler k { st with pendingWait := none } false).2 then
               PassEvent { m with resumeLog := m.resumeLog ++ [(id, some e)] }
             else { m with resumeLog := m.resumeLog ++ [(id, some e)] }) ∧
       (runHandler k { st with pendingWait := none } false).1.transitions
         = st.transitions ++ declared k) := by
  refine ⟨?_, ?_, ?_⟩
  · intro m e id rest hd st hl hna
    exact dispatchLoop_cons_skip e id rest m hd st hl
      ((handleTool_none_iff e id st m).mpr hna)
  · intro m e id rest hd st st' m' hl hh hp
    rw [dispatchLoop_cons_match e id rest m hd st st' m' hl hh,
        if_neg (by simp [hp])]
  · intro e id st m cs k hw hm
    refine ⟨handleTool_resume e id st m cs k hw hm, ?_⟩
    rw [runHandler_transitions]

/-- Witness for C1: on `mSkip` the non-matching top tool is skipped; on
`mDone` the topmost matching tool consumes the event and the walk stops; on
`mWait`'s tool, which holds both a matching wait and a matching fresh
transition, the wait is resumed and the transition stays pending. -/
theorem C1_witness :
    lookupState mSkip 10 = some { transitions := [], pendingWait := none } ∧
    toolAccepts { transitions := [], pendingWait := none } eClick = false ∧
    dispatchLoop eClick [10, 20] mSkip false = dispatchLoop eClick [20] mSkip false ∧
    lookupState mDone 10
      = some { transitions := [(csClick, HPROG.done)], pendingWait := none } ∧
    handleTool eClick 10 { transitions := [(csClick, HPROG.done)], pendingWait := none }
        mDone
      = some ({ transitions := [], pendingWait := none }, mDone) ∧
    dispatchLoop eClick [10] mDone false
      = (true, finishTool
          (setState mDone 10 { transitions := [], pendingWait := none }) 10
          { transitions := [], pendingWait := none }) ∧
    handleTool eClick 10
        { transitions := [(csClick, HPROG.done)],
          pendingWait := some (csClick, HPROG.done) } mWait
      = some ((runHandler HPROG.done
            { transitions := [(csClick, HPROG.done)], pendingWait := none } false).1,
          if (runHandler HPROG.done
              { transitions := [(csClick, HPROG.done)], pendingWait := none } false).2
          then PassEvent { mWait with resumeLog := mWait.resumeLog ++ [(10, some eClick)] }
          else { mWait with resumeLog := mWait.resumeLog ++ [(10, some eClick)] }) ∧
    (runHandler HPROG.done
        { transitions := [(csClick, HPROG.done)], pendingWait := none } false).1.transitions
      = [(csClick, HPROG.done)] ++ declared HPROG.done := by
  have h1 : lookupState mSkip 10 = some { transitions := [], pendingWait := none } := by
    decide
  have h2 : toolAccepts { transitions := [], pendingWait := none } eClick = false := by
    decide
  have h4 : lookupState mDone 10
      = some { transitions := [(csClick, HPROG.done)], pendingWait := none } := by decide
  have h5 : handleTool eClick 10
      { transitions := [(csClick, HPROG.done)], pendingWait := none } mDone
      = some ({ transitions := [], pendingWait := none }, mDone) := by decide
  have hwm : listMatches csClick eClick = true := by decide
  have h78 := C1_topmost_wait_first.2.2 eClick 10
    { transitions := [(csClick, HPROG.done)], pendingWait := some (csClick, HPROG.done) }
    mWait csClick HPROG.done rfl hwm
  exact ⟨h1, h2,
    C1_topmost_wait_first.1 mSkip eClick 10 [20] false
      { transitions := [], pendingWait := none } h1 h2,
    h4, h5,
    C1_topmost_wait_first.2.1 mDone eClick 10 [] false
      { transitions := [(csClick, HPROG.done)], pendingWait := none }
      { transitions := [], pendingWait := none } mDone h4 h5 rfl,
    h78.1, h78.2⟩

/-- C5: when the matched tool's handler signals pass-through, the walk does
not stop — it continues to the lower tools with the same event and the
event already counts as consumed; a walk entered with the consumed flag set
reports `true`; hence `ProcessEvent` returns `true` whenever some tool on
the stack matched, pass-through or not. -/
theorem C5_pass_through :
    (∀ (m : TOOL_MANAGER) (e : TOOL_EVENT) (id : TOOL_ID) (rest : List TOOL_ID)
       (hd : Bool) (st st' : TOOL_STATE) (m' : TOOL_MANAGER),
       lookupState m id = some st →
       handleTool e id st m = some (st', m') → m'.m_passEvent = true →
       dispatchLoop e (id :: rest) m hd
         = dispatchLoop e rest
             { finishTool (setState m' id st') id st' with m_passEvent := false }
             true) ∧
    (∀ (e : TOOL_EVENT) (ids : List TOOL_ID) (m : TOOL_MANAGER),
       (dispatchLoop e ids m true).1 = true) ∧
    (∀ (m : TOOL_MANAGER) (e : TOOL_EVENT) (pre : List TOOL_ID) (id : TOOL_ID)
       (rest : List TOOL_ID) (st st' : TOOL_STATE) (m' : TOOL_MANAGER),
       m.m_activeTools = pre ++ id :: rest →
       (∀ i ∈ pre, stackToolAccepts m i e = false) →
       lookupState m id = some st →
       handleTool e id st { m with m_passEvent := false } = some (st', m') →
       (ProcessEvent m e).1 = true) := by
  refine ⟨?_, ?_, ?_⟩
  · intro m e id rest hd st st' m' hl hh hp
    rw [dispatchLoop_cons_match e id rest m hd st st' m' hl hh, if_pos hp]
  · intro e ids m
    exact dispatchLoop_handled e ids m
  · intro m e pre id rest st st' m' hstack hskip hl hh
    rw [ProcessEvent_skip_to m e pre (id :: rest) hstack hskip,
        dispatchLoop_cons_match e id rest { m with m_passEvent := false } false
          st st' m' hl hh]
    by_cases hp : m'.m_passEvent = true
    · rw [if_pos hp]
      exact dispatchLoop_handled e rest _
    · rw [if_neg hp]

/-- Witness for C5 on `mPass`: the top tool matches and passes, the walk
continues to the lower tool with the same event, both tools consume their
transitions, and `ProcessEvent` returns `true`. -/
theorem C5_witness :
    lookupState mPass 10
      = some { transitions := [(csClick, HPROG.pass HPROG.done)], pendingWait := none } ∧
    handleTool eClick 10
        { transitions := [(csClick, HPROG.pass HPROG.done)], pendingWait := none } mPass
      = some ({ transitions := [], pendingWait := none }, PassEvent mPass) ∧
    (PassEvent mPass).m_passEvent = true ∧
    dispatchLoop eClick [10, 20] mPass false
      = dispatchLoop eClick [20]
          { finishTool
              (setState (PassEvent mPass) 10 { transitions := [], pendingWait := none })
              10 { transitions := [], pendingWait := none }
            with m_passEvent := false } true ∧
    (ProcessEvent mPass eClick).1 = true ∧
    (ProcessEvent mPass eClick).2.toolStates
      = [(10, { transitions := [], pendingWait := none }),
         (20, { transitions := [], pendingWait := none })] := by
  have h1 : lookupState mPass 10
      = some { transitions := [(csClick, HPROG.pass HPROG.done)], pendingWait := none } := by
    decide
  have h2 : handleTool eClick 10
      { transitions := [(csClick, HPROG.pass HPROG.done)], pendingWait := none } mPass
      = some ({ transitions := [], pendingWait := none }, PassEvent mPass) := by decide
  have h2' : handleTool eClick 10
      { transitions := [(csClick, HPROG.pass HPROG.done)], pendingWait := none }
      { mPass with m_passEvent := false }
      = some ({ transitions := [], pendingWait := none }, PassEvent mPass) := by decide
  exact ⟨h1, h2, rfl,
    C5_pass_through.1 mPass eClick 10 [20] false
      { transitions := [(csClick, HPROG.pass HPROG.done)], pendingWait := none }
      { transitions := [], pendingWait := none } (PassEvent mPass) h1 h2 rfl,
    C5_pass_through.2.2 mPass eClick [] 10 [20]
      { transitions := [(csClick, HPROG.pass HPROG.done)], pendingWait := none }
      { transitions := [], pendingWait := none } (PassEvent mPass) rfl (by simp)
      h1 h2',
    by decide⟩

/-- C3: a transition declared by `ScheduleNextState` is consumed at most
once — when an event matches, the first matching transition is removed from
the tool's pending set before its handler is invoked, so after the handler
runs the pending set is the remainder plus only what the handler itself
re-declared; in particular a tool whose single matching transition ran a
handler that declared nothing and did not suspend no longer matches any
event, so a second identical event cannot re-trigger it. -/
theorem C3_transition_consumed_once :
    (∀ (e : TOOL_EVENT) (id : TOOL_ID) (st : TOOL_STATE) (m : TOOL_MANAGER)
       (b : List TRANSITION) (tr : TRANSITION) (a : List TRANSITION),
       st.pendingWait = none →
       splitFirstMatch e st.transitions = some (b, tr, a) →
       st.transitions = b ++ tr :: a ∧ listMatches tr.1 e = true ∧
       handleTool e id st m
         = some ((runHandler tr.2 { st with transitions := b ++ a } false).1,
             if (runHandler tr.2 { st with transitions := b ++ a } false).2 then
               PassEvent m
             else m) ∧
       (runHandler tr.2 { st with transitions := b ++ a } false).1.transitions
         = (b ++ a) ++ declared tr.2) ∧
    (∀ (st : TOOL_STATE) (tr : TRANSITION),
       st.pendingWait = none →
       st.transitions = [tr] →
       declared tr.2 = [] → waitOf tr.2 = none →
       ∀ e₂ : TOOL_EVENT,
         toolAccepts (runHandler tr.2 { st with transitions := [] } false).1 e₂
           = false) := by
  constructor
  · intro e id st m b tr a hw hs
    obtain ⟨heq, hmt, hb⟩ := splitFirstMatch_sound e st.transitions b tr a hs
    refine ⟨heq, hmt, handleTool_fresh e id st m b tr a hw hs, ?_⟩
    rw [runHandler_transitions]
  · intro st tr hw ht hd0 hw0 e₂
    have h1 : (runHandler tr.2 { st with transitions := [] } false).1.transitions
        = [] := by
      rw [runHandler_transitions, hd0]
      rfl
    have h2 : (runHandler tr.2 { st with transitions := [] } false).1.pendingWait
        = none := by
      rw [runHandler_wait, hw0]
      exact hw
    unfold toolAccepts
    rw [h1, h2]
    simp

/-- Witness for C3 on `mDone`'s tool state: the single matching transition
is removed before its handler runs and nothing re-matches afterwards; the
concrete double dispatch confirms it — the first `(1,2)` event is consumed,
the second is not (while on `mKeep`, whose handler re-declares the
transition, the second event is consumed again). -/
theorem C3_witness :
    splitFirstMatch eClick [(csClick, HPROG.done)]
      = some ([], (csClick, HPROG.done), []) ∧
    handleTool eClick 10 { transitions := [(csClick, HPROG.done)], pendingWait := none }
        mDone
      = some ((runHandler HPROG.done
            { transitions := ([] : List TRANSITION) ++ [], pendingWait := none } false).1,
          if (runHandler HPROG.done
              { transitions := ([] : List TRANSITION) ++ [], pendingWait := none } false).2
          then PassEvent mDone else mDone) ∧
    toolAccepts (runHandler HPROG.done
        { transitions := [], pendingWait := none } false).1 eClick = false ∧
    (ProcessEvent mDone eClick).1 = true ∧
    (ProcessEvent (ProcessEvent mDone eClick).2 eClick).1 = false ∧
    (ProcessEvent mKeep eClick).1 = true ∧
    (ProcessEvent (ProcessEvent mKeep eClick).2 eClick).1 = true := by
  have hs : splitFirstMatch eClick [(csClick, HPROG.done)]
      = some ([], (csClick, HPROG.done), []) := by decide
  have hall := C3_transition_consumed_once.1 eClick 10
    { transitions := [(csClick, HPROG.done)], pendingWait := none } mDone
    [] (csClick, HPROG.done) [] rfl hs
  exact ⟨hs, hall.2.2.1,
    C3_transition_consumed_once.2
      { transitions := [(csClick, HPROG.done)], pendingWait := none }
      (csClick, HPROG.done) rfl rfl rfl rfl eClick,
    by decide, by decide, by decide, by decide⟩

/-- C2: a tool whose outstanding suspended wait matches the dispatched
event is resumed exactly once with that event — among the resume-log
entries of that tool, the dispatch appends exactly the single entry
`(id, some e)`; calling `ResetTool` instead resumes the wait exactly once
with the absent result `(id, none)`, and afterwards the tool's runtime
state holds no outstanding wait. -/
theorem C2_wait_resumed_exactly_once :
    (∀ (m : TOOL_MANAGER) (e : TOOL_EVENT) (pre : List TOOL_ID) (id : TOOL_ID)
       (rest : List TOOL_ID) (st : TOOL_STATE) (cs : TOOL_EVENT_LIST) (k : HPROG),
       m.m_activeTools = pre ++ id :: rest →
       (∀ i ∈ pre, stackToolAccepts m i e = false) → id ∉ rest →
       lookupState m id = some st →
       st.pendingWait = some (cs, k) → listMatches cs e = true →
       ((ProcessEvent m e).2.resumeLog).filter (fun en => en.1 == id)
         = (m.resumeLog).filter (fun en => en.1 == id) ++ [(id, some e)]) ∧
    (∀ (m : TOOL_MANAGER) (t : TOOL_BASE) (st : TOOL_STATE)
       (w : TOOL_EVENT_LIST × HPROG),
       lookupState m (MakeToolId t.name) = some st →
       st.pendingWait = some w →
       (ResetTool m t).resumeLog = m.resumeLog ++ [(MakeToolId t.name, none)] ∧
       lookupState (ResetTool m t) (MakeToolId t.name)
         = some { transitions := t.resetTransitions, pendingWait := none }) := by
  constructor
  · intro m e pre id rest st cs k hstack hskip hnr hl hw hm
    have hht := handleTool_resume e id st { m with m_passEvent := false } cs k hw hm
    by_cases hp : (runHandler k { st with pendingWait := none } false).2
    · rw [if_pos hp] at hht
      rw [ProcessEvent_skip_to m e pre (id :: rest) hstack hskip,
          dispatchLoop_cons_match e id rest { m with m_passEvent := false } false
            st _ _ hl hht,
          if_pos (PassEvent_flag _),
          dispatchLoop_log_frame e rest _ true id hnr,
          clearPass_resumeLog,
          (finishTool_fields _ _ _).2.2.2, (setState_fields _ _ _).2.2.2]
      show (m.resumeLog ++ [(id, some e)]).filter (fun en => en.1 == id)
        = (m.resumeLog).filter (fun en => en.1 == id) ++ [(id, some e)]
      rw [List.filter_append]
      simp
    · rw [if_neg hp] at hht
      rw [ProcessEvent_skip_to m e pre (id :: rest) hstack hskip,
          dispatchLoop_cons_match e id rest { m with m_passEvent := false } false
            st _ _ hl hht,
          if_neg (noPass_flag _ rfl),
          (finishTool_fields _ _ _).2.2.2, (setState_fields _ _ _).2.2.2]
      show (m.resumeLog ++ [(id, some e)]).filter (fun en => en.1 == id)
        = (m.resumeLog).filter (fun en => en.1 == id) ++ [(id, some e)]
      rw [List.filter_append]
      simp
  · intro m t st w hl hw
    have hRT : ResetTool m t
        = setState { m with resumeLog := m.resumeLog ++ [(MakeToolId t.name, none)] }
            (MakeToolId t.name)
            { transitions := t.resetTransitions, pendingWait := none } := by
      unfold ResetTool
      dsimp only
      rw [hl]
      dsimp only
      rw [hw]
    constructor
    · rw [hRT, (setState_fields _ _ _).2.2.2]
    · rw [hRT]
      exact lookupState_setState_self _ _ st _ hl

/-- Witness for C2: on `mWait` the matching event resumes the suspended
wait exactly once, logging `(10, some eClick)`; on `mWaitA`, `ResetTool`
cancels the outstanding wait exactly once with the absent result and
leaves the tool with no wait. -/
theorem C2_witness :
    mWait2.m_activeTools = [5] ++ 10 :: [] ∧
    (∀ i ∈ [(5 : TOOL_ID)], stackToolAccepts mWait2 i eClick = false) ∧
    lookupState mWait2 10
      = some { transitions := [], pendingWait := some (csClick, HPROG.done) } ∧
    ((ProcessEvent mWait2 eClick).2.resumeLog).filter (fun en => en.1 == 10)
      = (mWait2.resumeLog).filter (fun en => en.1 == 10) ++ [(10, some eClick)] ∧
    (ProcessEvent mWait2 eClick).2.resumeLog = [(10, some eClick)] ∧
    lookupState mWaitA (MakeToolId tA.name)
      = some { transitions := [], pendingWait := some (csClick, HPROG.done) } ∧
    (ResetTool mWaitA tA).resumeLog
      = mWaitA.resumeLog ++ [(MakeToolId tA.name, none)] ∧
    lookupState (ResetTool mWaitA tA) (MakeToolId tA.name)
      = some { transitions := tA.resetTransitions, pendingWait := none } := by
  have hsk : ∀ i ∈ [(5 : TOOL_ID)], stackToolAccepts mWait2 i eClick = false := by
    decide
  have hl : lookupState mWait2 10
      = some { transitions := [], pendingWait := some (csClick, HPROG.done) } := by
    decide
  have hlA : lookupState mWaitA (MakeToolId tA.name)
      = some { transitions := [], pendingWait := some (csClick, HPROG.done) } := by
    decide
  have hres := C2_wait_resumed_exactly_once.2 mWaitA tA
    { transitions := [], pendingWait := some (csClick, HPROG.done) }
    (csClick, HPROG.done) hlA rfl
  exact ⟨rfl, hsk, hl,
    C2_wait_resumed_exactly_once.1 mWait2 eClick [5] 10 []
      { transitions := [], pendingWait := some (csClick, HPROG.done) }
      csClick HPROG.done rfl hsk (by decide) hl rfl (by decide),
    by decide, hlA, hres.1, hres.2⟩

/-- C4: after the dispatched handler for the matched tool runs to
completion, the tool is removed from the Activation Stack by the end of
that `ProcessEvent` call exactly when it is left with no pending
transitions and no outstanding wait; leaving a transition or a fresh wait
behind keeps it on the stack. -/
theorem C4_finished_tool_removed :
    ∀ (m : TOOL_MANAGER) (e : TOOL_EVENT) (pre : List TOOL_ID) (id : TOOL_ID)
      (rest : List TOOL_ID) (st st' : TOOL_STATE) (m' : TOOL_MANAGER),
      m.m_activeTools = pre ++ id :: rest →
      (∀ i ∈ pre, stackToolAccepts m i e = false) → id ∉ rest →
      lookupState m id = some st →
      handleTool e id st { m with m_passEvent := false } = some (st', m') →
      ((st'.transitions = [] ∧ st'.pendingWait = none →
          id ∉ (ProcessEvent m e).2.m_activeTools) ∧
       ((st'.transitions ≠ [] ∨ st'.pendingWait ≠ none) →
          id ∈ (ProcessEvent m e).2.m_activeTools)) := by
  intro m e pre id rest st st' m' hstack hskip hnr hl hh
  have hact' : m'.m_activeTools = pre ++ id :: rest := by
    rw [(handleTool_frame e id st { m with m_passEvent := false } st' m' hh).2.2.1]
    exact hstack
  rw [ProcessEvent_skip_to m e pre (id :: rest) hstack hskip,
      dispatchLoop_cons_match e id rest { m with m_passEvent := false } false
        st st' m' hl hh]
  constructor
  · rintro ⟨ht, hwn⟩
    have hcond : (st'.transitions.isEmpty && st'.pendingWait.isNone) = true := by
      rw [ht, hwn]; rfl
    have hni : id ∉ (finishTool (setState m' id st') id st').m_activeTools := by
      rw [finishTool_active, if_pos hcond, (setState_fields _ _ _).2.1, hact']
      intro hmem
      have := (List.mem_filter.mp hmem).2
      simp at this
    split
    · intro hmem
      exact hni (dispatchLoop_active_subset e rest
        { finishTool (setState m' id st') id st' with m_passEvent := false }
        true id hmem)
    · exact hni
  · intro hne
    have hcond : (st'.transitions.isEmpty && st'.pendingWait.isNone) = false := by
      rcases hne with h | h
      · cases hx : st'.transitions with
        | nil => exact absurd hx h
        | cons y ys => rfl
      · cases hx : st'.pendingWait with
        | none => exact absurd hx h
        | some wv => simp
    have hm₂ : (finishTool (setState m' id st') id st').m_activeTools
        = pre ++ id :: rest := by
      rw [finishTool_active, if_neg (by simp [hcond]), (setState_fields _ _ _).2.1,
          hact']
    split
    · refine dispatchLoop_keeps_active e rest _ true id ?_ hnr
      show id ∈ (finishTool (setState m' id st') id st').m_activeTools
      rw [hm₂]
      exact List.mem_append_right pre (List.mem_cons_self id rest)
    · show id ∈ (finishTool (setState m' id st') id st').m_activeTools
      rw [hm₂]
      exact List.mem_append_right pre (List.mem_cons_self id rest)

/-- Witness for C4: on `mDone` the handler finishes with nothing pending
and tool 10 leaves the stack; on `mKeep` the handler re-declares a
transition and tool 10 stays. -/
theorem C4_witness :
    handleTool eClick 10 { transitions := [(csClick, HPROG.done)], pendingWait := none }
        { mDone with m_passEvent := false }
      = some ({ transitions := [], pendingWait := none }, { mDone with m_passEvent := false }) ∧
    (10 : TOOL_ID) ∉ (ProcessEvent mDone eClick).2.m_activeTools ∧
    (ProcessEvent mDone eClick).2.m_activeTools = [] ∧
    handleTool eClick 10
        { transitions := [(csClick, HPROG.scheduleNext csClick HPROG.done HPROG.done)],
          pendingWait := none }
        { mKeep with m_passEvent := false }
      = some ({ transitions := [(csClick, HPROG.done)], pendingWait := none },
              { mKeep with m_passEvent := false }) ∧
    (10 : TOOL_ID) ∈ (ProcessEvent mKeep eClick).2.m_activeTools ∧
    (ProcessEvent mKeep eClick).2.m_activeTools = [10] := by
  have hh1 : handleTool eClick 10
      { transitions := [(csClick, HPROG.done)], pendingWait := none }
      { mDone with m_passEvent := false }
      = some ({ transitions := [], pendingWait := none },
              { mDone with m_passEvent := false }) := by decide
  have hh2 : handleTool eClick 10
      { transitions := [(csClick, HPROG.scheduleNext csClick HPROG.done HPROG.done)],
        pendingWait := none }
      { mKeep with m_passEvent := false }
      = some ({ transitions := [(csClick, HPROG.done)], pendingWait := none },
              { mKeep with m_passEvent := false }) := by decide
  exact ⟨hh1,
    (C4_finished_tool_removed mDone eClick [] 10 []
      { transitions := [(csClick, HPROG.done)], pendingWait := none }
      { transitions := [], pendingWait := none }
      { mDone with m_passEvent := false } rfl (by simp) (by decide)
      (by decide) hh1).1 ⟨rfl, rfl⟩,
    by decide, hh2,
    (C4_finished_tool_removed mKeep eClick [] 10 []
      { transitions := [(csClick, HPROG.scheduleNext csClick HPROG.done HPROG.done)],
        pendingWait := none }
      { transitions := [(csClick, HPROG.done)], pendingWait := none }
      { mKeep with m_passEvent := false } rfl (by simp) (by decide)
      (by decide) hh2).2 (Or.inl (by decide)),
    by decide⟩
